import Mathlib

/-!
Shallow embedding of the two Kepler-equation solvers of the
rust-kepler-solver crate (src/ellipse.rs and src/hyperbola.rs).

Modelling conventions:
* Rust f64 values and arithmetic are modelled by real numbers (ℝ);
  f64 has no NaN-free total order, but all claims are about the
  real-arithmetic behaviour of the formulas, so follow-the-source
  real arithmetic is used.  Division by zero in Lean is total
  (x / 0 = 0); where a claim is about well-definedness the relevant
  denominators are shown to be nonzero.
* f64::signum is rustSignum below: on ℝ there is no negative zero and
  no NaN, so signum is 1 for x ≥ 0 and -1 for x < 0, exactly as Rust
  computes on those inputs.
* The unbounded `loop { ... }` constructs of the source carry no
  iteration cap; they are modelled with an explicit fuel argument,
  `none` meaning the loop has not yet converged within that fuel.
  A loop body is otherwise translated verbatim.
-/

noncomputable section

namespace KeplerSolver

open Real

/-- Rust `f64::signum` restricted to genuine reals: 1 for nonnegative input,
-1 for negative input (ℝ has no -0.0 and no NaN). -/
def rustSignum (x : ℝ) : ℝ := if x < 0 then -1 else 1

/-! ### src/ellipse.rs -/

/-- `const DELTA_THRESHOLD: f64 = 1.0e-10` (src/ellipse.rs line 5). -/
def DELTA_THRESHOLD : ℝ := 1e-10

/-- `fn laguerre_delta` (src/ellipse.rs lines 7-13).  The source computes
`b = sqrt(a.abs())` and then `b = b.abs() * f_prime.signum()`. -/
def laguerre_delta (f f_prime f_prime_prime : ℝ) : ℝ :=
  let n : ℝ := 2
  let a := (n - 1) ^ 2 * f_prime ^ 2 - n * (n - 1) * f * f_prime_prime
  let b := abs (Real.sqrt (abs a)) * rustSignum f_prime;
  -(n * f) / (f_prime + b)

/-- `struct EllipseSolver` (src/ellipse.rs lines 27-30). -/
structure EllipseSolver where
  eccentricity : ℝ

/-- `EllipseSolver::new` (src/ellipse.rs lines 33-35). -/
def EllipseSolver.new (eccentricity : ℝ) : EllipseSolver :=
  { eccentricity := eccentricity }

/-- The closed-form initial seed of `EllipseSolver::solve`
(src/ellipse.rs lines 41-43), written exactly as in the source. -/
def ellipseInitialGuess (eccentricity mean_anomaly : ℝ) : ℝ :=
  mean_anomaly
    + (0.999999 * 4 * eccentricity * mean_anomaly * (π - mean_anomaly))
    / (8 * eccentricity * mean_anomaly + 4 * eccentricity * (eccentricity - π) + π ^ 2)

/-- The `loop { ... }` of `EllipseSolver::solve` (src/ellipse.rs lines 48-59),
with explicit fuel.  When `|delta| < DELTA_THRESHOLD` the loop breaks
WITHOUT adding the final delta, exactly as in the source. -/
def ellipseLoop (eccentricity mean_anomaly : ℝ) : ℕ → ℝ → Option ℝ
  | 0, _ => none
  | fuel + 1, eccentric_anomaly =>
    let sin_eccentric_anomaly := Real.sin eccentric_anomaly
    let cos_eccentric_anomaly := Real.cos eccentric_anomaly
    let f := mean_anomaly - eccentric_anomaly + eccentricity * sin_eccentric_anomaly
    let f_prime := -1 + eccentricity * cos_eccentric_anomaly
    let f_prime_prime := -eccentricity * sin_eccentric_anomaly
    let delta := laguerre_delta f f_prime f_prime_prime
    if |delta| < DELTA_THRESHOLD then some eccentric_anomaly
    else ellipseLoop eccentricity mean_anomaly fuel (eccentric_anomaly + delta)

/-- `EllipseSolver::solve` (src/ellipse.rs lines 38-61). -/
def EllipseSolver.solve (s : EllipseSolver) (fuel : ℕ) (mean_anomaly : ℝ) : Option ℝ :=
  ellipseLoop s.eccentricity mean_anomaly fuel (ellipseInitialGuess s.eccentricity mean_anomaly)

/-! ### src/hyperbola.rs -/

/-- `const CUBIC_DELTA_THRESHOLD: f64 = 1.0e-6` (src/hyperbola.rs line 4). -/
def CUBIC_DELTA_THRESHOLD : ℝ := 1e-6

/-- `PADE_ECCENTRIC_ANOMALY_THRESHOLDS` (src/hyperbola.rs lines 9-24).
The Rust `[f64; 15]` array is modelled as a function on ℕ; indices ≥ 15 are
never used (a Rust access there would be a bounds panic). -/
def PADE_ECCENTRIC_ANOMALY_THRESHOLDS : ℕ → ℝ
  | 0 => 40 / 8
  | 1 => 38 / 8
  | 2 => 34 / 8
  | 3 => 30 / 8
  | 4 => 26 / 8
  | 5 => 22 / 8
  | 6 => 18 / 8
  | 7 => 15 / 8
  | 8 => 13 / 8
  | 9 => 11 / 8
  | 10 => 9 / 8
  | 11 => 7 / 8
  | 12 => 5 / 8
  | 13 => 3 / 8
  | 14 => 29 / 200
  | _ => 0

/-- `PADE_ORDERS` (src/hyperbola.rs lines 26-41), modelled like the
thresholds array. -/
def PADE_ORDERS : ℕ → ℝ
  | 0 => 10 / 2
  | 1 => 9 / 2
  | 2 => 8 / 2
  | 3 => 7 / 2
  | 4 => 6 / 2
  | 5 => 5 / 2
  | 6 => 8 / 4
  | 7 => 7 / 4
  | 8 => 6 / 4
  | 9 => 5 / 4
  | 10 => 4 / 4
  | 11 => 3 / 4
  | 12 => 2 / 4
  | 13 => 1 / 4
  | 14 => 0 / 4
  | _ => 0

/-- `fn hyperbolic_kepler_equation` (src/hyperbola.rs lines 44-46). -/
def hyperbolic_kepler_equation (eccentricity eccentric_anomaly : ℝ) : ℝ :=
  eccentricity * Real.sinh eccentric_anomaly - eccentric_anomaly

/-- `fn pade_approximation` (src/hyperbola.rs lines 48-65).  The returned
`[f64; 4]` is modelled as the tuple (f3, f2, f1, f0) of coefficients. -/
def pade_approximation (ec mh a : ℝ) : ℝ × ℝ × ℝ × ℝ :=
  let ex := Real.exp a
  let enx := Real.exp (-a)
  let sa := (ex - enx) / 2
  let ca := (ex + enx) / 2
  let d1 := ca ^ 2 + 3
  let d2 := sa ^ 2 + 4
  let p1 := ca * (3 * ca ^ 2 + 17) / (5 * d1)
  let p2 := sa * (3 * sa ^ 2 + 28) / (20 * d2)
  let p3 := ca * (ca ^ 2 + 27) / (60 * d1)
  let q1 := -2 * ca * sa / (5 * d1)
  let q2 := (sa ^ 2 - 4) / (20 * d2);
  (ec * p3 - q2,
   ec * p2 - (mh + a) * q2 - q1,
   ec * p1 - (mh + a) * q1 - 1,
   ec * sa - mh - a)

/-- The `loop { ... }` of `fn solve_cubic` (src/hyperbola.rs lines 69-79),
with explicit fuel.  `coefficients` is the tuple (f3, f2, f1, f0). -/
def cubicLoop (coefficients : ℝ × ℝ × ℝ × ℝ) : ℕ → ℝ → Option ℝ
  | 0, _ => none
  | fuel + 1, x =>
    let c0 := coefficients.1
    let c1 := coefficients.2.1
    let c2 := coefficients.2.2.1
    let c3 := coefficients.2.2.2
    let f := ((c0 * x + c1) * x + c2) * x + c3
    let f_prime := (3 * c0 * x + 2 * c1) * x + c2
    let f_prime_prime := 6 * c0 * x + 2 * c1
    let delta := -2 * f * f_prime / (2 * f_prime ^ 2 - f * f_prime_prime)
    if |delta| < CUBIC_DELTA_THRESHOLD then some x
    else cubicLoop coefficients fuel (x + delta)

/-- `fn solve_cubic` (src/hyperbola.rs lines 67-81): Halley iteration on the
cubic, started from `mh / (ec - 1.0)`. -/
def solve_cubic (coefficients : ℝ × ℝ × ℝ × ℝ) (mh ec : ℝ) (fuel : ℕ) : Option ℝ :=
  cubicLoop coefficients fuel (mh / (ec - 1))

/-- `struct HyperbolaSolver` (src/hyperbola.rs lines 94-98); the `[f64; 15]`
threshold field is modelled as a function on ℕ as above. -/
structure HyperbolaSolver where
  eccentricity : ℝ
  pade_mean_anomaly_thresholds : ℕ → ℝ

/-- `HyperbolaSolver::new` (src/hyperbola.rs lines 101-104). -/
def HyperbolaSolver.new (eccentricity : ℝ) : HyperbolaSolver :=
  { eccentricity := eccentricity
    pade_mean_anomaly_thresholds := fun i =>
      hyperbolic_kepler_equation eccentricity (PADE_ECCENTRIC_ANOMALY_THRESHOLDS i) }

/-- The index scan `while i < self.pade_mean_anomaly_thresholds.len()-1 &&
mh < self.pade_mean_anomaly_thresholds[i+1] { i += 1; }`
(src/hyperbola.rs lines 115-118).  The loop is structurally bounded by the
guard `i < 14`, so it is translated by well-founded recursion on `14 - i`. -/
def padeIndexLoop (thr : ℕ → ℝ) (mh : ℝ) (i : ℕ) : ℕ :=
  if h : i < 14 ∧ mh < thr (i + 1) then padeIndexLoop thr mh (i + 1) else i
termination_by 14 - i
decreasing_by
  obtain ⟨h1, -⟩ := h
  omega

/-- The asymptotic (large mean anomaly) seed of `HyperbolaSolver::solve`
(src/hyperbola.rs lines 124-135). -/
def hyperbolaAsymptoticF0 (ec mh : ℝ) : ℝ :=
  let fa := Real.log (2 * mh / ec)
  let ca := 0.5 * (2 * mh / ec + ec / (2 * mh))
  let sa := 0.5 * (2 * mh / ec - ec / (2 * mh))
  let top := 6 * (ec ^ 2 / (4 * mh) + fa) / (ec * ca - 1)
    + 3 * (ec * sa / (ec * ca - 1)) * ((ec ^ 2 / (4 * mh) + fa) / (ec * ca - 1)) ^ 2
  let bottom := 6 + 6 * (ec * sa / (ec * ca - 1)) * ((ec ^ 2 / (4 * mh) + fa) / (ec * ca - 1))
    + (ec * ca / (ec * ca - 1)) * ((ec ^ 2 / (4 * mh) + fa) / (ec * ca - 1)) ^ 2
  let delta := top / bottom
  fa + delta

/-- The computation of the seed `f0` in `HyperbolaSolver::solve`
(src/hyperbola.rs lines 113-136): piecewise Padé seed for
`mh <= thresholds[0]`, asymptotic seed otherwise. -/
def hyperbolaSeedF0 (s : HyperbolaSolver) (fuel : ℕ) (mh : ℝ) : Option ℝ :=
  if mh ≤ s.pade_mean_anomaly_thresholds 0 then
    let i := padeIndexLoop s.pade_mean_anomaly_thresholds mh 0
    let a := PADE_ORDERS i
    let coefficients := pade_approximation s.eccentricity mh a
    Option.map (fun x => x + a) (solve_cubic coefficients mh s.eccentricity fuel)
  else
    some (hyperbolaAsymptoticF0 s.eccentricity mh)

/-- The single final Halley step of `HyperbolaSolver::solve`
(src/hyperbola.rs lines 138-142). -/
def hyperbolaHalleyStep (ec mh f0 : ℝ) : ℝ :=
  let f := ec * Real.sinh f0 - f0 - mh
  let f_prime := ec * Real.cosh f0 - 1
  let f_prime_prime := f_prime + 1
  f0 - (2 * f / f_prime) / (2 - f * f_prime_prime / f_prime ^ 2)

/-- `HyperbolaSolver::solve` (src/hyperbola.rs lines 107-145): seed, one
Halley step, then reattach the sign of the input mean anomaly. -/
def HyperbolaSolver.solve (s : HyperbolaSolver) (fuel : ℕ) (mean_anomaly : ℝ) : Option ℝ :=
  Option.map
    (fun f0 => hyperbolaHalleyStep s.eccentricity |mean_anomaly| f0 * rustSignum mean_anomaly)
    (hyperbolaSeedF0 s fuel |mean_anomaly|)

/-! ### Spec-side definitions for the ellipse claims -/

/-- The initial seed exactly as claim C2 writes it:
E0 = M + (0.999999 * 4 e M (π - M)) / (8 e M + 4 e (e - π) + π²). -/
def ellipseInitialGuessSpecC2 (e M : ℝ) : ℝ :=
  M + (0.999999 * (4 * e * M * (π - M))) / (8 * e * M + 4 * e * (e - π) + π ^ 2)

/-- The refinement loop exactly as claim C3 states it: the update
`E ← E + δ` is applied and "the returned E includes that final applied δ",
i.e. on convergence the loop returns `E + δ` rather than `E`. -/
def ellipseLoopClaimC3 (eccentricity mean_anomaly : ℝ) : ℕ → ℝ → Option ℝ
  | 0, _ => none
  | fuel + 1, eccentric_anomaly =>
    let f := mean_anomaly - eccentric_anomaly + eccentricity * Real.sin eccentric_anomaly
    let f_prime := -1 + eccentricity * Real.cos eccentric_anomaly
    let f_prime_prime := -eccentricity * Real.sin eccentric_anomaly
    let delta := laguerre_delta f f_prime f_prime_prime
    if |delta| < DELTA_THRESHOLD then some (eccentric_anomaly + delta)
    else ellipseLoopClaimC3 eccentricity mean_anomaly fuel (eccentric_anomaly + delta)

/-- The refinement loop as amended: with n = 2, each step computes the
Laguerre delta δ = -(n f) / (f_prime + b) where
b = sign(f_prime) * sqrt(|(n-1)² f_prime² - n (n-1) f f_prime_prime|);
when |δ| < 1e-10 the loop exits WITHOUT applying that final δ and returns
the current iterate; otherwise it applies E ← E + δ and repeats. -/
def ellipseLoopAmendedC3 (eccentricity mean_anomaly : ℝ) : ℕ → ℝ → Option ℝ
  | 0, _ => none
  | fuel + 1, E =>
    let f := mean_anomaly - E + eccentricity * Real.sin E
    let f_prime := -1 + eccentricity * Real.cos E
    let f_prime_prime := -eccentricity * Real.sin E
    let b := rustSignum f_prime * Real.sqrt (abs (f_prime ^ 2 - 2 * (f * f_prime_prime)))
    let delta := -(2 * f) / (f_prime + b)
    if |delta| < 1e-10 then some E
    else ellipseLoopAmendedC3 eccentricity mean_anomaly fuel (E + delta)

/-! ### Spec-side definitions for the hyperbola claims -/

/-- The 15 fixed eccentric-anomaly breakpoints exactly as claim C5 lists
them: (5.000, 4.750, 4.250, 3.750, 3.250, 2.750, 2.250, 1.875, 1.625,
1.375, 1.125, 0.875, 0.625, 0.375, 0.145). -/
def padeBreakpointsSpecC5 : ℕ → ℝ
  | 0 => 5.000
  | 1 => 4.750
  | 2 => 4.250
  | 3 => 3.750
  | 4 => 3.250
  | 5 => 2.750
  | 6 => 2.250
  | 7 => 1.875
  | 8 => 1.625
  | 9 => 1.375
  | 10 => 1.125
  | 11 => 0.875
  | 12 => 0.625
  | 13 => 0.375
  | 14 => 0.145
  | _ => 0

/-- The 15 interpolation orders exactly as claim C6 lists them:
(5.0, 4.5, 4.0, 3.5, 3.0, 2.5, 2.0, 1.75, 1.5, 1.25, 1.0, 0.75, 0.5,
0.25, 0.0). -/
def padeOrdersSpecC6 : ℕ → ℝ
  | 0 => 5.0
  | 1 => 4.5
  | 2 => 4.0
  | 3 => 3.5
  | 4 => 3.0
  | 5 => 2.5
  | 6 => 2.0
  | 7 => 1.75
  | 8 => 1.5
  | 9 => 1.25
  | 10 => 1.0
  | 11 => 0.75
  | 12 => 0.5
  | 13 => 0.25
  | 14 => 0.0
  | _ => 0

/-- The cubic Halley iteration exactly as claim C6 describes it: on the
cubic c0 x³ + c1 x² + c2 x + c3 (coefficients in source index order), step
δ = -2 f f_prime / (2 f_prime² - f f_prime_prime), stopping as soon as
|δ| < 1e-6. -/
def cubicLoopSpec (c0 c1 c2 c3 : ℝ) : ℕ → ℝ → Option ℝ
  | 0, _ => none
  | fuel + 1, x =>
    let f := c0 * x ^ 3 + c1 * x ^ 2 + c2 * x + c3
    let f_prime := 3 * c0 * x ^ 2 + 2 * c1 * x + c2
    let f_prime_prime := 6 * c0 * x + 2 * c1
    let delta := -(2 * f * f_prime) / (2 * f_prime ^ 2 - f * f_prime_prime)
    if |delta| < 1e-6 then some x
    else cubicLoopSpec c0 c1 c2 c3 fuel (x + delta)

/-- The small-regime seed estimate as claim C6 describes it: pick the index
i by the threshold scan, take the order a from the C6 order list, build the
four cubic coefficients from (e, |M|, a), solve the cubic by Halley
iteration from x0 = |M| / (e - 1), and use x + a as the seed f0. -/
def hyperbolaPadeSeedSpecC6 (e mh : ℝ) (n : ℕ) : Option ℝ :=
  let i := padeIndexLoop (HyperbolaSolver.new e).pade_mean_anomaly_thresholds mh 0
  let a := padeOrdersSpecC6 i
  let c := pade_approximation e mh a
  Option.map (fun x => x + a) (cubicLoopSpec c.1 c.2.1 c.2.2.1 c.2.2.2 n (mh / (e - 1)))

/-- The final polish exactly as claim C7 writes it:
f = e sinh f0 - f0 - |M|, f_prime = e cosh f0 - 1,
f_prime_prime = f_prime + 1, f1 = f0 - (2f/f_prime)/(2 - f f_prime_prime/f_prime²). -/
def halleyFinalSpecC7 (e mh f0 : ℝ) : ℝ :=
  f0 - (2 * (e * Real.sinh f0 - f0 - mh) / (e * Real.cosh f0 - 1))
    / (2 - (e * Real.sinh f0 - f0 - mh) * ((e * Real.cosh f0 - 1) + 1)
        / (e * Real.cosh f0 - 1) ^ 2)

/-! ### Helper lemmas for the hyperbola claims -/

lemma cubicLoop_eq_spec (c0 c1 c2 c3 : ℝ) :
    ∀ (fuel : ℕ) (x : ℝ),
      cubicLoop (c0, c1, c2, c3) fuel x = cubicLoopSpec c0 c1 c2 c3 fuel x := by
  intro fuel
  induction fuel with
  | zero => intro x; rfl
  | succ fuel ih =>
    intro x
    simp only [cubicLoop, cubicLoopSpec]
    have hδ : -2 * (((c0 * x + c1) * x + c2) * x + c3) * ((3 * c0 * x + 2 * c1) * x + c2)
          / (2 * ((3 * c0 * x + 2 * c1) * x + c2) ^ 2
              - (((c0 * x + c1) * x + c2) * x + c3) * (6 * c0 * x + 2 * c1))
        = -(2 * (c0 * x ^ 3 + c1 * x ^ 2 + c2 * x + c3)
              * (3 * c0 * x ^ 2 + 2 * c1 * x + c2))
          / (2 * (3 * c0 * x ^ 2 + 2 * c1 * x + c2) ^ 2
              - (c0 * x ^ 3 + c1 * x ^ 2 + c2 * x + c3) * (6 * c0 * x + 2 * c1)) := by
      rw [show ((c0 * x + c1) * x + c2) * x + c3 = c0 * x ^ 3 + c1 * x ^ 2 + c2 * x + c3
            by ring,
        show (3 * c0 * x + 2 * c1) * x + c2 = 3 * c0 * x ^ 2 + 2 * c1 * x + c2 by ring]
      ring
    rw [hδ, show CUBIC_DELTA_THRESHOLD = (1e-6 : ℝ) from rfl, ih]

lemma solve_cubic_eq_spec (c : ℝ × ℝ × ℝ × ℝ) (mh ec : ℝ) (fuel : ℕ) :
    solve_cubic c mh ec fuel = cubicLoopSpec c.1 c.2.1 c.2.2.1 c.2.2.2 fuel (mh / (ec - 1)) := by
  obtain ⟨c0, c1, c2, c3⟩ := c
  exact cubicLoop_eq_spec c0 c1 c2 c3 fuel (mh / (ec - 1))

lemma padeIndexLoop_props (thr : ℕ → ℝ) (mh : ℝ) :
    ∀ k i, 14 - i ≤ k → i ≤ 14 →
      padeIndexLoop thr mh i ≤ 14
      ∧ (∀ j, i ≤ j → j < padeIndexLoop thr mh i → mh < thr (j + 1))
      ∧ (padeIndexLoop thr mh i < 14 → thr (padeIndexLoop thr mh i + 1) ≤ mh) := by
  intro k
  induction k with
  | zero =>
    intro i hk hi
    have hi14 : i = 14 := by omega
    subst hi14
    rw [padeIndexLoop]
    have hcond : ¬(14 < 14 ∧ mh < thr (14 + 1)) := by
      intro hc
      omega
    rw [dif_neg hcond]
    refine ⟨le_refl _, ?_, ?_⟩
    · intro j hj1 hj2
      omega
    · intro hlt
      omega
  | succ k ih =>
    intro i hk hi
    rw [padeIndexLoop]
    by_cases hc : i < 14 ∧ mh < thr (i + 1)
    · rw [dif_pos hc]
      have h3 := ih (i + 1) (by omega) (by omega)
      refine ⟨h3.1, ?_, h3.2.2⟩
      intro j hj1 hj2
      rcases eq_or_lt_of_le hj1 with hj | hj
      · rw [← hj]
        exact hc.2
      · exact h3.2.1 j (by omega) hj2
    · rw [dif_neg hc]
      refine ⟨hi, ?_, ?_⟩
      · intro j hj1 hj2
        omega
      · intro h14
        by_contra hlt
        exact hc ⟨h14, not_le.mp hlt⟩

lemma padeIndexLoop_eq_14 (thr : ℕ → ℝ) (mh : ℝ) :
    ∀ k i, 14 - i ≤ k → i ≤ 14 → (∀ j, i < j → j ≤ 14 → mh < thr j) →
      padeIndexLoop thr mh i = 14 := by
  intro k
  induction k with
  | zero =>
    intro i hk hi _
    have hi14 : i = 14 := by omega
    subst hi14
    rw [padeIndexLoop]
    rw [dif_neg (by intro hc; omega : ¬(14 < 14 ∧ mh < thr (14 + 1)))]
  | succ k ih =>
    intro i hk hi hj
    by_cases hlt : i < 14
    · rw [padeIndexLoop, dif_pos ⟨hlt, hj (i + 1) (by omega) (by omega)⟩]
      exact ih (i + 1) (by omega) (by omega) (fun j h1 h2 => hj j (by omega) h2)
    · have hi14 : i = 14 := by omega
      subst hi14
      rw [padeIndexLoop]
      rw [dif_neg (by intro hc; omega : ¬(14 < 14 ∧ mh < thr (14 + 1)))]

lemma pade_orders_eq_spec : ∀ i, i ≤ 14 → PADE_ORDERS i = padeOrdersSpecC6 i := by
  intro i hi
  interval_cases i <;> norm_num [PADE_ORDERS, padeOrdersSpecC6]

lemma new_thresholds_pos (e : ℝ) (he : 1 < e) :
    ∀ j, j ≤ 14 → 0 < (HyperbolaSolver.new e).pade_mean_anomaly_thresholds j := by
  have key : ∀ b : ℝ, 0 < b → 0 < e * Real.sinh b - b := by
    intro b hb
    have h1 : b < Real.sinh b := Real.self_lt_sinh_iff.mpr hb
    have h2 : 0 < Real.sinh b := lt_trans hb h1
    nlinarith
  intro j hj
  interval_cases j <;>
    simp only [HyperbolaSolver.new, hyperbolic_kepler_equation,
      PADE_ECCENTRIC_ANOMALY_THRESHOLDS] <;>
    exact key _ (by norm_num)

/-! ### Claim C2 -/

/-- Claim C2: `EllipseSolver::solve(M)` starts its iteration from exactly the
closed-form seed E0 = M + (0.999999 * 4 e M (π - M)) / (8 e M + 4 e (e - π) + π²)
with e the stored eccentricity — and (witnessed at M = π/2 for any e > 0)
this seed differs from the naive seeds M and M + e sin M. -/
theorem c2_initial_seed :
    (∀ (e M : ℝ) (n : ℕ),
      (EllipseSolver.new e).solve n M = ellipseLoop e M n (ellipseInitialGuessSpecC2 e M))
    ∧ ∀ e : ℝ, 0 < e →
        ellipseInitialGuessSpecC2 e (π / 2) ≠ π / 2
        ∧ ellipseInitialGuessSpecC2 e (π / 2) ≠ π / 2 + e * Real.sin (π / 2) := by
  constructor
  · intro e M n
    have hg : ellipseInitialGuessSpecC2 e M = ellipseInitialGuess e M := by
      unfold ellipseInitialGuessSpecC2 ellipseInitialGuess
      ring
    rw [EllipseSolver.solve, hg]
    rfl
  · intro e he
    have hq : ellipseInitialGuessSpecC2 e (π / 2)
        = π / 2 + 0.999999 * e * π ^ 2 / (4 * e ^ 2 + π ^ 2) := by
      unfold ellipseInitialGuessSpecC2
      rw [show 8 * e * (π / 2) + 4 * e * (e - π) + π ^ 2 = 4 * e ^ 2 + π ^ 2 by ring,
        show 0.999999 * (4 * e * (π / 2) * (π - π / 2)) = 0.999999 * e * π ^ 2 by ring]
    have hden : (0 : ℝ) < 4 * e ^ 2 + π ^ 2 := by positivity
    have hpos : 0 < 0.999999 * e * π ^ 2 / (4 * e ^ 2 + π ^ 2) := by positivity
    refine ⟨?_, ?_⟩
    · rw [hq]
      intro hEq
      nlinarith
    · rw [hq, Real.sin_pi_div_two]
      intro hEq
      have hv : 0.999999 * e * π ^ 2 / (4 * e ^ 2 + π ^ 2) = e := by linarith
      rw [div_eq_iff (ne_of_gt hden)] at hv
      have hkey : e * (4 * e ^ 2) + e * (0.000001 * π ^ 2) = 0 := by
        linear_combination -hv
      have hpos2 : 0 < e * (4 * e ^ 2) + e * (0.000001 * π ^ 2) := by positivity
      linarith

/-- Witness for C2's seed-differs-from-naive part at e = 1. -/
theorem c2_initial_seed_witness :
    ellipseInitialGuessSpecC2 1 (π / 2) ≠ π / 2 :=
  (c2_initial_seed.2 1 (by norm_num)).1

/-! ### Claim C3 -/

/-- Counterexample to claim C3 as stated: at the concrete iteration state
e = 1/2, M = 1e-12, E = 0 the Laguerre delta is 2e-12, which is below the
1e-10 threshold; the loop of the source returns E = 0 without applying it,
whereas the loop described by the claim would return E + δ = 2e-12. -/
theorem c3_counterexample :
    ellipseLoopClaimC3 (1/2) 1e-12 1 0 ≠ ellipseLoop (1/2) 1e-12 1 0 := by
  have hsqrt : Real.sqrt (1/4 : ℝ) = 1/2 := by
    rw [show (1/4 : ℝ) = (1/2) ^ 2 by norm_num]
    exact Real.sqrt_sq (by norm_num)
  have hδ : laguerre_delta (1e-12 - 0 + 1/2 * Real.sin 0) (-1 + 1/2 * Real.cos 0)
      (-(1/2) * Real.sin 0) = 2e-12 := by
    rw [Real.sin_zero, Real.cos_zero]
    simp only [laguerre_delta, rustSignum]
    norm_num
    rw [show |(1/4 : ℝ)| = (1/4 : ℝ) by norm_num, hsqrt,
      show |(1/2 : ℝ)| = (1/2 : ℝ) by norm_num]
    norm_num
  have hlt : |(2e-12 : ℝ)| < DELTA_THRESHOLD := by
    rw [abs_of_nonneg (by norm_num : (0:ℝ) ≤ (2e-12 : ℝ))]
    norm_num [DELTA_THRESHOLD]
  have h1 : ellipseLoopClaimC3 (1/2) 1e-12 1 0 = some (0 + 2e-12) := by
    rw [show (1:ℕ) = 0 + 1 from rfl]
    simp only [ellipseLoopClaimC3]
    rw [hδ, if_pos hlt]
  have h2 : ellipseLoop (1/2) 1e-12 1 0 = some 0 := by
    rw [show (1:ℕ) = 0 + 1 from rfl]
    simp only [ellipseLoop]
    rw [hδ, if_pos hlt]
  rw [h1, h2]
  intro hEq
  rw [Option.some.injEq] at hEq
  norm_num at hEq

/-- Claim C3 as amended: each refinement step of `EllipseSolver::solve` uses
the order-2 Laguerre delta δ = -(n f)/(f_prime + b), n = 2,
b = sign(f_prime)·sqrt(|(n-1)² f_prime² - n(n-1) f f_prime_prime|), and the
loop applies E ← E + δ and repeats until |δ| < 1e-10 — at which point it
exits WITHOUT applying that final sub-threshold δ: the returned E is the
iterate at which the small δ was computed. -/
theorem c3_laguerre_loop :
    (∀ f f_prime f_prime_prime : ℝ,
      laguerre_delta f f_prime f_prime_prime
        = -(2 * f) / (f_prime
            + rustSignum f_prime
              * Real.sqrt (abs (f_prime ^ 2 - 2 * (f * f_prime_prime)))))
    ∧ ∀ (e M : ℝ) (n : ℕ) (E : ℝ), ellipseLoop e M n E = ellipseLoopAmendedC3 e M n E := by
  have hdelta : ∀ f f_prime f_prime_prime : ℝ,
      laguerre_delta f f_prime f_prime_prime
        = -(2 * f) / (f_prime
            + rustSignum f_prime
              * Real.sqrt (abs (f_prime ^ 2 - 2 * (f * f_prime_prime)))) := by
    intro f fp fpp
    simp only [laguerre_delta]
    rw [show ((2:ℝ) - 1) ^ 2 * fp ^ 2 - 2 * (2 - 1) * f * fpp
          = fp ^ 2 - 2 * (f * fpp) by ring,
      abs_of_nonneg (Real.sqrt_nonneg _)]
    ring
  refine ⟨hdelta, ?_⟩
  intro e M n
  induction n with
  | zero => intro E; rfl
  | succ n ih =>
    intro E
    simp only [ellipseLoop, ellipseLoopAmendedC3]
    rw [hdelta, show DELTA_THRESHOLD = (1e-10 : ℝ) from rfl, ih]

/-! ### Claim C10 -/

/-- Claim C10: for 0 < e < 1, `EllipseSolver::solve(0.0)` terminates with
exactly 0: the seed's numerator vanishes and its denominator equals
(2e - π)², which is nonzero on this range, so the seed is 0; the first
Laguerre delta there is 0, below the 1e-10 threshold, so the loop exits on
its first iteration (fuel 1 suffices) returning 0.  (Freedom from NaN/∞ is
modelled by the nonvanishing denominator.) -/
theorem c10_zero_mean_anomaly (e : ℝ) (n : ℕ) (h0 : 0 < e) (h1 : e < 1) (h2 : 1 ≤ n) :
    (8 * e * 0 + 4 * e * (e - π) + π ^ 2 = (2 * e - π) ^ 2)
    ∧ (2 * e - π) ^ 2 ≠ 0
    ∧ ellipseInitialGuess e 0 = 0
    ∧ laguerre_delta (0 - 0 + e * Real.sin 0) (-1 + e * Real.cos 0) (-e * Real.sin 0) = 0
    ∧ |laguerre_delta (0 - 0 + e * Real.sin 0) (-1 + e * Real.cos 0) (-e * Real.sin 0)|
        < DELTA_THRESHOLD
    ∧ (EllipseSolver.new e).solve n 0 = some 0 := by
  have hpi : (3 : ℝ) < π := Real.pi_gt_three
  have hden : (2 * e - π) ^ 2 ≠ 0 := by
    intro hc
    have : 2 * e - π = 0 := by
      exact pow_eq_zero_iff (n := 2) (by norm_num) |>.mp hc
    nlinarith
  have hguess : ellipseInitialGuess e 0 = 0 := by
    unfold ellipseInitialGuess
    norm_num
  have hdelta0 : laguerre_delta (0 - 0 + e * Real.sin 0) (-1 + e * Real.cos 0)
      (-e * Real.sin 0) = 0 := by
    unfold laguerre_delta
    norm_num [Real.sin_zero]
  have habs : |laguerre_delta (0 - 0 + e * Real.sin 0) (-1 + e * Real.cos 0)
      (-e * Real.sin 0)| < DELTA_THRESHOLD := by
    rw [hdelta0]
    norm_num [DELTA_THRESHOLD]
  refine ⟨by ring, hden, hguess, hdelta0, habs, ?_⟩
  obtain ⟨m, rfl⟩ : ∃ m, n = m + 1 := ⟨n - 1, by omega⟩
  show ellipseLoop e 0 (m + 1) (ellipseInitialGuess e 0) = some 0
  rw [hguess]
  unfold ellipseLoop
  have : laguerre_delta (0 - 0 + e * Real.sin 0) (-1 + e * Real.cos 0)
      (-e * Real.sin 0) = 0 := hdelta0
  norm_num [Real.sin_zero] at this ⊢
  norm_num [this, DELTA_THRESHOLD]

/-- Witness for C10 at e = 1/2, n = 1. -/
theorem c10_zero_mean_anomaly_witness :
    (8 * (1/2 : ℝ) * 0 + 4 * (1/2) * ((1/2) - π) + π ^ 2 = (2 * (1/2) - π) ^ 2)
    ∧ (2 * (1/2 : ℝ) - π) ^ 2 ≠ 0
    ∧ ellipseInitialGuess (1/2) 0 = 0
    ∧ laguerre_delta (0 - 0 + (1/2) * Real.sin 0) (-1 + (1/2) * Real.cos 0)
        (-(1/2) * Real.sin 0) = 0
    ∧ |laguerre_delta (0 - 0 + (1/2) * Real.sin 0) (-1 + (1/2) * Real.cos 0)
        (-(1/2) * Real.sin 0)| < DELTA_THRESHOLD
    ∧ (EllipseSolver.new (1/2)).solve 1 0 = some 0 :=
  c10_zero_mean_anomaly (1/2) 1 (by norm_num) (by norm_num) (by norm_num)

/-! ### Claim C5 -/

/-- Claim C5: `HyperbolaSolver::new(e)` stores a 15-entry mean-anomaly
threshold table whose i-th entry is e·sinh(bᵢ) − bᵢ at the fixed
breakpoints bᵢ of the C5 list, derived from the stored eccentricity. -/
theorem c5_threshold_table (e : ℝ) (i : ℕ) (h : i < 15) :
    (HyperbolaSolver.new e).pade_mean_anomaly_thresholds i
      = e * Real.sinh (padeBreakpointsSpecC5 i) - padeBreakpointsSpecC5 i
    ∧ (HyperbolaSolver.new e).eccentricity = e := by
  refine ⟨?_, rfl⟩
  interval_cases i <;>
    simp only [HyperbolaSolver.new, hyperbolic_kepler_equation,
      PADE_ECCENTRIC_ANOMALY_THRESHOLDS, padeBreakpointsSpecC5] <;>
    norm_num

/-- Witness for C5 at e = 2, i = 3. -/
theorem c5_threshold_table_witness :
    (HyperbolaSolver.new 2).pade_mean_anomaly_thresholds 3
      = 2 * Real.sinh (padeBreakpointsSpecC5 3) - padeBreakpointsSpecC5 3
    ∧ (HyperbolaSolver.new 2).eccentricity = 2 :=
  c5_threshold_table 2 3 (by norm_num)

/-! ### Claim C6 -/

/-- Claim C6: whenever |M| is at most the first (largest) table threshold,
`HyperbolaSolver::solve` selects the scan index i (characterised below as the
first index whose successor threshold is not above |M|, within the bound 14),
takes the order a from the C6 order list, builds the four cubic coefficients
from (e, |M|, a), solves that cubic by Halley iteration from x0 = |M|/(e-1)
with step δ = -2 f f_prime/(2 f_prime² - f f_prime_prime) until |δ| < 1e-6,
and uses x + a as the seed estimate f0. -/
theorem c6_pade_regime (e M : ℝ) (n : ℕ)
    (h : |M| ≤ (HyperbolaSolver.new e).pade_mean_anomaly_thresholds 0) :
    (HyperbolaSolver.new e).solve n M
      = Option.map (fun f0 => hyperbolaHalleyStep e |M| f0 * rustSignum M)
          (hyperbolaPadeSeedSpecC6 e |M| n)
    ∧ padeIndexLoop (HyperbolaSolver.new e).pade_mean_anomaly_thresholds |M| 0 ≤ 14
    ∧ (∀ j, j < padeIndexLoop (HyperbolaSolver.new e).pade_mean_anomaly_thresholds |M| 0 →
        |M| < (HyperbolaSolver.new e).pade_mean_anomaly_thresholds (j + 1))
    ∧ (padeIndexLoop (HyperbolaSolver.new e).pade_mean_anomaly_thresholds |M| 0 < 14 →
        (HyperbolaSolver.new e).pade_mean_anomaly_thresholds
            (padeIndexLoop (HyperbolaSolver.new e).pade_mean_anomaly_thresholds |M| 0 + 1)
          ≤ |M|) := by
  have hprops := padeIndexLoop_props
    (HyperbolaSolver.new e).pade_mean_anomaly_thresholds |M| 14 0 (by omega) (by omega)
  refine ⟨?_, hprops.1, fun j hj => hprops.2.1 j (Nat.zero_le j) hj, hprops.2.2⟩
  have hsolve : (HyperbolaSolver.new e).solve n M
      = Option.map (fun f0 => hyperbolaHalleyStep e |M| f0 * rustSignum M)
          (hyperbolaSeedF0 (HyperbolaSolver.new e) n |M|) := rfl
  rw [hsolve]
  refine congrArg _ ?_
  simp only [hyperbolaSeedF0, hyperbolaPadeSeedSpecC6]
  rw [if_pos h, pade_orders_eq_spec _ hprops.1, solve_cubic_eq_spec]
  rfl

/-- Witness for C6 at e = 2, M = 1, n = 5 (|1| is below the first threshold
2·sinh 5 − 5). -/
theorem c6_pade_regime_witness :
    (HyperbolaSolver.new 2).solve 5 1
      = Option.map (fun f0 => hyperbolaHalleyStep 2 |1| f0 * rustSignum 1)
          (hyperbolaPadeSeedSpecC6 2 |1| 5) :=
  (c6_pade_regime 2 1 5 (by
    have h5 : (5 : ℝ) < Real.sinh 5 := Real.self_lt_sinh_iff.mpr (by norm_num)
    simp only [HyperbolaSolver.new, hyperbolic_kepler_equation,
      PADE_ECCENTRIC_ANOMALY_THRESHOLDS]
    rw [abs_one, show (40/8 : ℝ) = 5 by norm_num]
    nlinarith)).1

/-! ### Claim C7 -/

/-- Claim C7: for every input mean anomaly, in both regimes, the seed f0 is
refined by exactly one Halley step (f = e sinh f0 - f0 - |M|,
f_prime = e cosh f0 - 1, f_prime_prime = f_prime + 1,
f1 = f0 - (2f/f_prime)/(2 - f f_prime_prime/f_prime²)) with no convergence
loop, and the returned value is f1 multiplied by the sign of the input. -/
theorem c7_single_halley_polish (s : HyperbolaSolver) (n : ℕ) (M : ℝ) :
    s.solve n M
      = Option.map (fun f0 => halleyFinalSpecC7 s.eccentricity |M| f0 * rustSignum M)
          (hyperbolaSeedF0 s n |M|) := by
  have hstep : ∀ ec mh f0 : ℝ, hyperbolaHalleyStep ec mh f0 = halleyFinalSpecC7 ec mh f0 := by
    intro ec mh f0
    simp only [hyperbolaHalleyStep, halleyFinalSpecC7]
  rw [HyperbolaSolver.solve]
  simp only [hstep]

/-! ### Claim C8 -/

/-- Claim C8: for e > 1 (and enough fuel for the inner cubic loop),
`HyperbolaSolver::solve(-M) = -(solve(M))` for every M, and `solve(0) = 0`. -/
theorem c8_odd_symmetry (e M : ℝ) (n : ℕ) (he : 1 < e) (hn : 1 ≤ n) :
    (HyperbolaSolver.new e).solve n (-M)
        = Option.map (fun x => -x) ((HyperbolaSolver.new e).solve n M)
    ∧ (HyperbolaSolver.new e).solve n 0 = some 0 := by
  have hthr := new_thresholds_pos e he
  have hzero : (HyperbolaSolver.new e).solve n 0 = some 0 := by
    obtain ⟨m, rfl⟩ : ∃ m, n = m + 1 := ⟨n - 1, by omega⟩
    have hidx : padeIndexLoop (HyperbolaSolver.new e).pade_mean_anomaly_thresholds 0 0 = 14 :=
      padeIndexLoop_eq_14 _ _ 14 0 (by omega) (by omega) (fun j h1 h2 => hthr j h2)
    have hc3 : (pade_approximation (HyperbolaSolver.new e).eccentricity 0 0).2.2.2 = 0 := by
      simp only [pade_approximation]
      norm_num
    have hloop : cubicLoopSpec
        (pade_approximation (HyperbolaSolver.new e).eccentricity 0 0).1
        (pade_approximation (HyperbolaSolver.new e).eccentricity 0 0).2.1
        (pade_approximation (HyperbolaSolver.new e).eccentricity 0 0).2.2.1
        (pade_approximation (HyperbolaSolver.new e).eccentricity 0 0).2.2.2 (m + 1) 0
        = some 0 := by
      simp only [cubicLoopSpec]
      norm_num [hc3]
    have hseed : hyperbolaSeedF0 (HyperbolaSolver.new e) (m + 1) 0 = some 0 := by
      simp only [hyperbolaSeedF0]
      rw [if_pos (hthr 0 (by omega)).le, hidx,
        show PADE_ORDERS 14 = 0 from by norm_num [PADE_ORDERS], solve_cubic_eq_spec,
        zero_div, hloop]
      simp
    simp only [HyperbolaSolver.solve, abs_zero]
    rw [hseed]
    simp only [Option.map_some']
    have hstep : hyperbolaHalleyStep (HyperbolaSolver.new e).eccentricity 0 0 = 0 := by
      simp only [hyperbolaHalleyStep]
      rw [Real.sinh_zero, Real.cosh_zero]
      norm_num
    rw [hstep]
    simp [rustSignum]
  refine ⟨?_, hzero⟩
  rcases eq_or_ne M 0 with rfl | hM
  · rw [neg_zero, hzero]
    simp
  · have hsgn : rustSignum (-M) = -rustSignum M := by
      simp only [rustSignum]
      rcases lt_trichotomy M 0 with h | h | h
      · rw [if_neg (by linarith), if_pos h]
        norm_num
      · exact absurd h hM
      · rw [if_pos (by linarith), if_neg (by linarith)]
    simp only [HyperbolaSolver.solve, abs_neg, hsgn]
    cases hs : hyperbolaSeedF0 (HyperbolaSolver.new e) n |M| with
    | none => rfl
    | some x =>
      simp only [Option.map_some']
      rw [Option.some.injEq]
      ring

/-- Witness for C8 at e = 2, M = 5, n = 1. -/
theorem c8_odd_symmetry_witness :
    ((HyperbolaSolver.new 2).solve 1 (-5)
        = Option.map (fun x => -x) ((HyperbolaSolver.new 2).solve 1 5))
    ∧ (HyperbolaSolver.new 2).solve 1 0 = some 0 :=
  c8_odd_symmetry 2 5 1 (by norm_num) (by norm_num)

/-! ### Claim C9 -/

/-- Claim C9: both solve methods are deterministic pure functions — the
result depends only on the stored fields and the mean anomaly (for solvers
built by `new`, only on the pair (eccentricity, mean anomaly), since the
hyperbola threshold table is derived from the stored eccentricity). -/
theorem c9_pure_deterministic :
    (∀ (s t : EllipseSolver) (n : ℕ) (M1 M2 : ℝ),
      s.eccentricity = t.eccentricity → M1 = M2 → s.solve n M1 = t.solve n M2)
    ∧ (∀ (s t : HyperbolaSolver) (n : ℕ) (M1 M2 : ℝ),
      s.eccentricity = t.eccentricity →
      s.pade_mean_anomaly_thresholds = t.pade_mean_anomaly_thresholds →
      M1 = M2 → s.solve n M1 = t.solve n M2)
    ∧ ∀ e : ℝ, (HyperbolaSolver.new e).eccentricity = e
        ∧ (HyperbolaSolver.new e).pade_mean_anomaly_thresholds
          = fun i => hyperbolic_kepler_equation (HyperbolaSolver.new e).eccentricity
              (PADE_ECCENTRIC_ANOMALY_THRESHOLDS i) := by
  refine ⟨?_, ?_, ?_⟩
  · rintro ⟨e1⟩ ⟨e2⟩ n M1 M2 h1 rfl
    dsimp only at h1
    subst h1
    rfl
  · rintro ⟨e1, t1⟩ ⟨e2, t2⟩ n M1 M2 h1 h2 rfl
    dsimp only at h1 h2
    subst h1
    subst h2
    rfl
  · intro e
    exact ⟨rfl, rfl⟩

/-- Witness for C9: same stored eccentricity and same mean anomaly give the
same result. -/
theorem c9_pure_deterministic_witness :
    (EllipseSolver.new (1/2)).solve 3 1 = (EllipseSolver.new (1/2)).solve 3 1 :=
  c9_pure_deterministic.1 (EllipseSolver.new (1/2)) (EllipseSolver.new (1/2)) 3 1 1 rfl rfl

end KeplerSolver
